import Mathlib

/-!
Verification of the timed acquisition/control loop of
`McNeill_23899_2025_InAir_GatingControl.py` (class `AgilentB2902A`).

The Python program drives an Agilent B2902A source-measure unit over a TCP
socket.  The core is `run_measurement`, a loop that

  * reads `t0 = time.time()` once and sets `self.datapoints = []`,
  * while `self.stoptrigger` is false: reads the clock, fires the one-shot
    switch-on write `f":sour:volt {turn_on_voltage}"` (guarded by `switched`
    and `t >= turn_on_time`) followed by `beep_up`, issues the two
    measurement queries of `measure`, appends `(t_global, current, voltage)`
    to `self.datapoints`, then sleeps `meas_interval`,
  * after the loop: writes `f":sour:volt {turn_off_voltage}"`, calls
    `beep_dn`, records `t1`, and keeps sampling while `t < t1 +
    turn_off_time_meas`,
  * finally converts `self.datapoints` to a numpy array and returns it.

The embedding is shallow.  Wall-clock values and voltages live in an
arbitrary linearly ordered additive commutative group `T` (the loop uses
only `+`, `-` and order comparisons on them); concrete instances below use
`ℤ`, and the theorems hold for `ℚ` or any model of real time alike.  The
nondeterministic environment (successive `time.time()` values, the raw
instrument responses, and the external writes to the shared `stoptrigger`
flag) is a record of streams; each call of the corresponding Python
primitive consumes the next stream element, tracked by explicit indices in
`RunState`.  `time.sleep` consumes nothing observable: the clock is already
an arbitrary stream, so the sleep's only effect (wall-clock passing) is
absorbed into it.  Python `while` loops are embedded with fuel; a `none`
result means the fuel did not cover the execution, so
`run_measurement ... = some out` states that the run terminates with
outcome `out`.

Ghost instrumentation (`events`, `nSwitchOn`, `nSwitchOff`, `switchOnT`,
`iters`) counts/records executions of specific source lines; it alters no
control flow.
-/

namespace GatingControl

/-- A command written to the instrument.  `sourVolt v` is the f-string
`f":sour:volt {v}"` (the only parametrised command); every other command the
program writes is a fixed string, carried verbatim by `raw`. -/
inductive Cmd (T : Type) where
  | sourVolt (v : T)
  | raw (s : String)
  deriving DecidableEq, Repr

/-- The concrete wire text of a command, given the formatter `fmt` for
voltage values (Python's str-formatting of floats). -/
def Cmd.render {T : Type} (fmt : T → String) : Cmd T → String
  | .sourVolt v => ":sour:volt " ++ fmt v
  | .raw s => s

/-- An observable event of the loop: a command written to the instrument, a
sample appended to `self.datapoints`, or a read of the shared `stoptrigger`
flag (the `while not self.stoptrigger` check). -/
inductive Ev (T : Type) where
  | write (c : Cmd T)
  | sample (t : T) (curr : String) (volt : String)
  | stopRead (b : Bool)
  deriving DecidableEq, Repr

/-- Is this event a read of the stop flag? -/
def Ev.isStopRead {T : Type} : Ev T → Bool
  | .stopRead _ => true
  | _ => false

/-- The external environment of one call to `run_measurement`:
`clock n` is the value returned by the `n`-th call of `time.time()`;
`extStop n` is the write (if any) the external actor performs on
`self.stoptrigger` just before the loop's `n`-th read of the flag;
`curr n` / `volt n` are the raw instrument responses consumed by the `n`-th
call of `measure`. -/
structure Env (T : Type) where
  clock : ℕ → T
  extStop : ℕ → Option Bool
  curr : ℕ → String
  volt : ℕ → String

/-- Parameters of `run_measurement`, in source order.  `meas_interval` is
consumed only by `time.sleep`, which is unobservable in this model; the
source validates none of the parameters. -/
structure Params (T : Type) where
  turn_on_time : T
  turn_on_voltage : T
  turn_off_time_meas : T
  turn_off_voltage : T
  meas_interval : T
  deriving DecidableEq, Repr

/-- The mutable state threaded through a call of `run_measurement`.
`clockIdx`, `stopIdx`, `measIdx` count consumed environment-stream elements;
`stoptrigger` and `datapoints` mirror the object attributes of the same
name; `switched` mirrors the local flag; the rest is ghost instrumentation:
`events` is the ordered I/O trace, `nSwitchOn`/`nSwitchOff` count executions
of the switch-on write (source line 136) and the switch-off write (source
line 149), `switchOnT` records the elapsed time `t` at the switch-on write,
`iters` counts loop-body executions of both loops. -/
structure RunState (T : Type) where
  clockIdx : ℕ
  stopIdx : ℕ
  measIdx : ℕ
  stoptrigger : Bool
  datapoints : List (T × String × String)
  switched : Bool
  events : List (Ev T)
  nSwitchOn : ℕ
  nSwitchOff : ℕ
  switchOnT : Option T
  iters : ℕ
  deriving DecidableEq, Repr

instance {T : Type} [Inhabited T] : Inhabited (RunState T) :=
  ⟨⟨0, 0, 0, false, [], false, [], 0, 0, none, 0⟩⟩

variable {T : Type} [LinearOrderedAddCommGroup T]

/-- Append one event to the trace. -/
def emit (e : Ev T) (s : RunState T) : RunState T :=
  { s with events := s.events ++ [e] }

/-- `self.write(c)`: one command written to the instrument. -/
def writeC (c : Cmd T) (s : RunState T) : RunState T :=
  emit (Ev.write c) s

/-- The five commands of `beep_up`, in source order. -/
def beep_up (s : RunState T) : RunState T :=
  writeC (.raw ":SYST:BEEP 1600, 0.4")
    (writeC (.raw ":SYST:BEEP 1200, 0.1")
      (writeC (.raw ":SYST:BEEP 1000, 0.1")
        (writeC (.raw ":SYST:BEEP 800, 0.1")
          (writeC (.raw ":SYST:BEEP:STAT ON") s))))

/-- The five commands of `beep_dn`, in source order. -/
def beep_dn (s : RunState T) : RunState T :=
  writeC (.raw ":SYST:BEEP 800, 0.4")
    (writeC (.raw ":SYST:BEEP 1000, 0.1")
      (writeC (.raw ":SYST:BEEP 1200, 0.1")
        (writeC (.raw ":SYST:BEEP 1600, 0.1")
          (writeC (.raw ":SYST:BEEP:STAT ON") s))))

/-- The events emitted by `beep_up`. -/
def beepUpEvs (T : Type) : List (Ev T) :=
  [Ev.write (.raw ":SYST:BEEP:STAT ON"), Ev.write (.raw ":SYST:BEEP 800, 0.1"),
   Ev.write (.raw ":SYST:BEEP 1000, 0.1"), Ev.write (.raw ":SYST:BEEP 1200, 0.1"),
   Ev.write (.raw ":SYST:BEEP 1600, 0.4")]

/-- The events emitted by `beep_dn`. -/
def beepDnEvs (T : Type) : List (Ev T) :=
  [Ev.write (.raw ":SYST:BEEP:STAT ON"), Ev.write (.raw ":SYST:BEEP 1600, 0.1"),
   Ev.write (.raw ":SYST:BEEP 1200, 0.1"), Ev.write (.raw ":SYST:BEEP 1000, 0.1"),
   Ev.write (.raw ":SYST:BEEP 800, 0.4")]

/-- The command of `self.query(":meas:curr? (@1)")`. -/
def measCurrCmd (T : Type) : Cmd T := .raw ":meas:curr? (@1)"

/-- The command of `self.query(":meas:volt? (@1)")`. -/
def measVoltCmd (T : Type) : Cmd T := .raw ":meas:volt? (@1)"

/-- `self.measure()`: two query exchanges; the raw response strings are the
next elements of the `curr`/`volt` streams. -/
def measure (env : Env T) (s : RunState T) : (String × String) × RunState T :=
  let c := env.curr s.measIdx
  let v := env.volt s.measIdx
  ((c, v),
    { writeC (measVoltCmd T) (writeC (measCurrCmd T) s) with measIdx := s.measIdx + 1 })

/-- One read of `self.stoptrigger` (the `while not self.stoptrigger` check).
The external actor's pending write (if any) lands first; the loop itself
only reads the resulting value. -/
def readStop (env : Env T) (s : RunState T) : Bool × RunState T :=
  let b := (env.extStop s.stopIdx).getD s.stoptrigger
  (b, { emit (Ev.stopRead b) s with stopIdx := s.stopIdx + 1, stoptrigger := b })

/-- One call of `time.time()`. -/
def readClock (env : Env T) (s : RunState T) : T × RunState T :=
  (env.clock s.clockIdx, { s with clockIdx := s.clockIdx + 1 })

/-- The value of `self.stoptrigger` after `n` flag reads, starting from
`b0`: the fold of the external writes alone (the loop never assigns the
flag). -/
def stopVal (env : Env T) (b0 : Bool) : ℕ → Bool
  | 0 => b0
  | n + 1 => (env.extStop n).getD (stopVal env b0 n)

/-- The body of the sampling loop (source lines 131-145), entered after the
`stoptrigger` check came back false: read the clock, fire the guarded
one-shot switch-on write plus `beep_up`, measure, append the sample.
`time.sleep(meas_interval)` is unobservable. -/
def sampIter (env : Env T) (p : Params T) (t0 : T) (s : RunState T) : RunState T :=
  let tg := env.clock s.clockIdx
  let s1 : RunState T := { s with clockIdx := s.clockIdx + 1 }
  let t := tg - t0
  let s2 : RunState T :=
    if s1.switched = false ∧ p.turn_on_time ≤ t then
      { beep_up (writeC (.sourVolt p.turn_on_voltage) s1) with
          switched := true, nSwitchOn := s1.nSwitchOn + 1, switchOnT := some t }
    else s1
  let m := measure env s2
  let s3 := emit (Ev.sample tg m.1.1 m.1.2)
    { m.2 with datapoints := m.2.datapoints ++ [(tg, m.1.1, m.1.2)] }
  { s3 with iters := s3.iters + 1 }

/-- The sampling loop `while not self.stoptrigger: ...` (source lines
130-145), with fuel.  Each turn first reads the flag; a true read exits. -/
def samplingLoop (env : Env T) (p : Params T) (t0 : T) :
    ℕ → RunState T → Option (RunState T)
  | 0, _ => none
  | fuel + 1, s =>
    let r := readStop env s
    if r.1 then some r.2
    else samplingLoop env p t0 fuel (sampIter env p t0 r.2)

/-- The body of the post-off loop (source lines 156-162): read the clock,
measure, append; returns the freshly computed `t` used by the next check. -/
def postIter (env : Env T) (t0 : T) (s : RunState T) : T × RunState T :=
  let tg := env.clock s.clockIdx
  let s1 : RunState T := { s with clockIdx := s.clockIdx + 1 }
  let t := tg - t0
  let m := measure env s1
  let s2 := emit (Ev.sample tg m.1.1 m.1.2)
    { m.2 with datapoints := m.2.datapoints ++ [(tg, m.1.1, m.1.2)] }
  (t, { s2 with iters := s2.iters + 1 })

/-- The post-off loop `while t < t1 + turn_off_time_meas: ...` (source lines
155-162), with fuel.  `t` is the currently held elapsed time; on exit the
pair `(t, s)` carries the final `t` observed by the failing check. -/
def postOffLoop (env : Env T) (p : Params T) (t0 t1 : T) :
    ℕ → T → RunState T → Option (T × RunState T)
  | 0, t, s => if t < t1 + p.turn_off_time_meas then none else some (t, s)
  | fuel + 1, t, s =>
    if t < t1 + p.turn_off_time_meas then
      let r := postIter env t0 s
      postOffLoop env p t0 t1 fuel r.1 r.2
    else some (t, s)

/-- The state at entry of `run_measurement`: `self.datapoints = []`,
`switched = False`, the initial flag value `b0`, and `clockIdx = 1` because
`t0 = time.time()` consumed clock element `0`. -/
def initState (T : Type) (b0 : Bool) : RunState T :=
  { clockIdx := 1, stopIdx := 0, measIdx := 0, stoptrigger := b0,
    datapoints := [], switched := false, events := [],
    nSwitchOn := 0, nSwitchOff := 0, switchOnT := none, iters := 0 }

/-- `AgilentB2902A.run_measurement` (source lines 118-165).  Returns
`some (t1, tf, s)` on a terminating run: `t1` is the elapsed time recorded
at switch-off (source line 154), `tf` the elapsed time observed by the
failing post-off check, and `s` the final state; `s.datapoints` is the row
list of the finalized numpy array the call returns. -/
def run_measurement (env : Env T) (p : Params T) (b0 : Bool) (fuel1 fuel2 : ℕ) :
    Option (T × T × RunState T) :=
  let t0 := env.clock 0
  match samplingLoop env p t0 fuel1 (initState T b0) with
  | none => none
  | some s =>
    let sOff := beep_dn (writeC (.sourVolt p.turn_off_voltage)
      { s with nSwitchOff := s.nSwitchOff + 1 })
    let r := readClock env sOff
    let t1 := r.1 - t0
    match postOffLoop env p t0 t1 fuel2 t1 r.2 with
    | none => none
    | some (tf, s2) => some (t1, tf, s2)

/-! ### The Command Link (`write` / `query`, source lines 44-50)

A socket is modelled by the byte stream already sent and the byte sequence
available to be received; `recv n` returns at most `n` of the available
bytes, without any completeness check — exactly `socket.recv`. -/

/-- The transport endpoint: what was sent so far, and the pending inbound
bytes. -/
structure Socket where
  sent : String
  avail : List Char

/-- `socket.sendall(data)`. -/
def sendall (data : String) (sk : Socket) : Socket :=
  { sk with sent := sk.sent ++ data }

/-- `socket.recv(n)`: up to `n` bytes of whatever is available. -/
def recv (n : ℕ) (sk : Socket) : List Char × Socket :=
  (sk.avail.take n, { sk with avail := sk.avail.drop n })

/-- `AgilentB2902A.write`: `self.socket.sendall((command + "\n").encode())`. -/
def write (command : String) (sk : Socket) : Socket :=
  sendall (command ++ "\n") sk

/-- `AgilentB2902A.query`: `self.write(command)` then
`self.socket.recv(response_length)`. -/
def query (command : String) (response_length : ℕ) (sk : Socket) :
    List Char × Socket :=
  recv response_length (write command sk)

/-! ### Characterisations of the primitive steps -/

/-- The state after one `stoptrigger` check (the second component of
`readStop`), written as a single record update. -/
def afterStop (env : Env T) (s : RunState T) : RunState T :=
  { s with stopIdx := s.stopIdx + 1,
           stoptrigger := (env.extStop s.stopIdx).getD s.stoptrigger,
           events := s.events ++ [Ev.stopRead ((env.extStop s.stopIdx).getD s.stoptrigger)] }

omit [LinearOrderedAddCommGroup T] in
/-- `readStop` returns the flag value produced by the pending external write
and the state `afterStop`. -/
theorem readStop_spec (env : Env T) (s : RunState T) :
    readStop env s = ((env.extStop s.stopIdx).getD s.stoptrigger, afterStop env s) := by
  simp [readStop, emit, afterStop]

omit [LinearOrderedAddCommGroup T] in
/-- `beep_dn` only appends its five write events. -/
theorem beep_dn_spec (s : RunState T) :
    beep_dn s = { s with events := s.events ++ beepDnEvs T } := by
  simp [beep_dn, writeC, emit, beepDnEvs]

/-- A sampling iteration in which the switch-on guard fires
(`not switched and t >= turn_on_time`). -/
theorem sampIter_fire {s : RunState T} (h1 : s.switched = false)
    (h2 : p.turn_on_time ≤ env.clock s.clockIdx - t0) :
    sampIter env p t0 s = { s with
      clockIdx := s.clockIdx + 1, measIdx := s.measIdx + 1, iters := s.iters + 1,
      switched := true, nSwitchOn := s.nSwitchOn + 1,
      switchOnT := some (env.clock s.clockIdx - t0),
      events := s.events ++
        (Ev.write (.sourVolt p.turn_on_voltage) :: (beepUpEvs T ++
          [Ev.write (measCurrCmd T), Ev.write (measVoltCmd T),
           Ev.sample (env.clock s.clockIdx) (env.curr s.measIdx) (env.volt s.measIdx)])),
      datapoints := s.datapoints ++
        [(env.clock s.clockIdx, env.curr s.measIdx, env.volt s.measIdx)] } := by
  simp [sampIter, measure, writeC, emit, beep_up, measCurrCmd, measVoltCmd,
    beepUpEvs, h1, h2]

/-- A sampling iteration with the switch already made: no switch-on write. -/
theorem sampIter_switched {s : RunState T} (h1 : s.switched = true) :
    sampIter env p t0 s = { s with
      clockIdx := s.clockIdx + 1, measIdx := s.measIdx + 1, iters := s.iters + 1,
      events := s.events ++
        [Ev.write (measCurrCmd T), Ev.write (measVoltCmd T),
         Ev.sample (env.clock s.clockIdx) (env.curr s.measIdx) (env.volt s.measIdx)],
      datapoints := s.datapoints ++
        [(env.clock s.clockIdx, env.curr s.measIdx, env.volt s.measIdx)] } := by
  simp [sampIter, measure, writeC, emit, measCurrCmd, measVoltCmd, h1]

/-- A sampling iteration before the switch-on threshold: no switch-on
write. -/
theorem sampIter_below {s : RunState T}
    (h2 : ¬ p.turn_on_time ≤ env.clock s.clockIdx - t0) :
    sampIter env p t0 s = { s with
      clockIdx := s.clockIdx + 1, measIdx := s.measIdx + 1, iters := s.iters + 1,
      events := s.events ++
        [Ev.write (measCurrCmd T), Ev.write (measVoltCmd T),
         Ev.sample (env.clock s.clockIdx) (env.curr s.measIdx) (env.volt s.measIdx)],
      datapoints := s.datapoints ++
        [(env.clock s.clockIdx, env.curr s.measIdx, env.volt s.measIdx)] } := by
  simp [sampIter, measure, writeC, emit, measCurrCmd, measVoltCmd, h2]

/-- Every sampling iteration is one of the above two shapes. -/
theorem sampIter_cases (env : Env T) (p : Params T) (t0 : T) (s : RunState T) :
    (sampIter env p t0 s = { s with
        clockIdx := s.clockIdx + 1, measIdx := s.measIdx + 1, iters := s.iters + 1,
        events := s.events ++
          [Ev.write (measCurrCmd T), Ev.write (measVoltCmd T),
           Ev.sample (env.clock s.clockIdx) (env.curr s.measIdx) (env.volt s.measIdx)],
        datapoints := s.datapoints ++
          [(env.clock s.clockIdx, env.curr s.measIdx, env.volt s.measIdx)] }) ∨
    (s.switched = false ∧ p.turn_on_time ≤ env.clock s.clockIdx - t0 ∧
      sampIter env p t0 s = { s with
        clockIdx := s.clockIdx + 1, measIdx := s.measIdx + 1, iters := s.iters + 1,
        switched := true, nSwitchOn := s.nSwitchOn + 1,
        switchOnT := some (env.clock s.clockIdx - t0),
        events := s.events ++
          (Ev.write (.sourVolt p.turn_on_voltage) :: (beepUpEvs T ++
            [Ev.write (measCurrCmd T), Ev.write (measVoltCmd T),
             Ev.sample (env.clock s.clockIdx) (env.curr s.measIdx) (env.volt s.measIdx)])),
        datapoints := s.datapoints ++
          [(env.clock s.clockIdx, env.curr s.measIdx, env.volt s.measIdx)] }) := by
  by_cases h1 : s.switched = false
  · by_cases h2 : p.turn_on_time ≤ env.clock s.clockIdx - t0
    · exact Or.inr ⟨h1, h2, sampIter_fire h1 h2⟩
    · exact Or.inl (sampIter_below h2)
  · exact Or.inl (sampIter_switched (by simpa using h1))

/-- A post-off iteration: the measurement writes and the sample, plus the
freshly read elapsed time. -/
theorem postIter_spec (env : Env T) (t0 : T) (s : RunState T) :
    postIter env t0 s = (env.clock s.clockIdx - t0, { s with
      clockIdx := s.clockIdx + 1, measIdx := s.measIdx + 1, iters := s.iters + 1,
      events := s.events ++
        [Ev.write (measCurrCmd T), Ev.write (measVoltCmd T),
         Ev.sample (env.clock s.clockIdx) (env.curr s.measIdx) (env.volt s.measIdx)],
      datapoints := s.datapoints ++
        [(env.clock s.clockIdx, env.curr s.measIdx, env.volt s.measIdx)] }) := by
  simp [postIter, measure, writeC, emit, measCurrCmd, measVoltCmd]

/-! ### Invariants of the sampling loop -/

/-- `s'` extends `s`: the event trace and the datapoint list have only
grown, and the clock index is no smaller. -/
def Extends (s s' : RunState T) : Prop :=
  (∃ le, s'.events = s.events ++ le) ∧
  (∃ ld, s'.datapoints = s.datapoints ++ ld) ∧
  s.clockIdx ≤ s'.clockIdx

omit [LinearOrderedAddCommGroup T] in
theorem Extends.extendsSelf {s : RunState T} : Extends s s :=
  ⟨⟨[], by simp⟩, ⟨[], by simp⟩, le_refl _⟩

omit [LinearOrderedAddCommGroup T] in
theorem Extends.extendsTrans {a b c : RunState T} (h1 : Extends a b) (h2 : Extends b c) :
    Extends a c := by
  obtain ⟨⟨le1, he1⟩, ⟨ld1, hd1⟩, hc1⟩ := h1
  obtain ⟨⟨le2, he2⟩, ⟨ld2, hd2⟩, hc2⟩ := h2
  exact ⟨⟨le1 ++ le2, by simp [he2, he1]⟩, ⟨ld1 ++ ld2, by simp [hd2, hd1]⟩,
    le_trans hc1 hc2⟩

omit [LinearOrderedAddCommGroup T] in
theorem extends_afterStop (env : Env T) (s : RunState T) :
    Extends s (afterStop env s) :=
  ⟨⟨[Ev.stopRead ((env.extStop s.stopIdx).getD s.stoptrigger)], by simp [afterStop]⟩,
    ⟨[], by simp [afterStop]⟩, by simp [afterStop]⟩

theorem extends_sampIter (env : Env T) (p : Params T) (t0 : T) (s : RunState T) :
    Extends s (sampIter env p t0 s) := by
  rcases sampIter_cases env p t0 s with h | ⟨_, _, h⟩ <;>
    exact ⟨⟨_, by rw [h]⟩, ⟨_, by rw [h]⟩, by rw [h]; exact Nat.le_succ _⟩

theorem samplingLoop_extends : ∀ {fuel : ℕ} {s s' : RunState T},
    samplingLoop env p t0 fuel s = some s' → Extends s s' := by
  intro fuel
  induction fuel with
  | zero => intro s s' h; exact absurd h (by simp [samplingLoop])
  | succ n ih =>
    intro s s' h
    simp only [samplingLoop, readStop_spec] at h
    split at h
    · cases h; exact extends_afterStop env s
    · exact ((extends_afterStop env s).extendsTrans
        (extends_sampIter env p t0 (afterStop env s))).extendsTrans (ih h)

theorem samplingLoop_nSwitchOff : ∀ {fuel : ℕ} {s s' : RunState T},
    samplingLoop env p t0 fuel s = some s' → s'.nSwitchOff = s.nSwitchOff := by
  intro fuel
  induction fuel with
  | zero => intro s s' h; exact absurd h (by simp [samplingLoop])
  | succ n ih =>
    intro s s' h
    simp only [samplingLoop, readStop_spec] at h
    split at h
    · cases h; simp [afterStop]
    · have := ih h
      rcases sampIter_cases env p t0 (afterStop env s) with hit | ⟨_, _, hit⟩ <;>
        rw [hit] at this <;> simpa [afterStop] using this

theorem samplingLoop_switched_true : ∀ {fuel : ℕ} {s s' : RunState T},
    samplingLoop env p t0 fuel s = some s' → s.switched = true →
    s'.switched = true ∧ s'.nSwitchOn = s.nSwitchOn ∧ s'.switchOnT = s.switchOnT := by
  intro fuel
  induction fuel with
  | zero => intro s s' h; exact absurd h (by simp [samplingLoop])
  | succ n ih =>
    intro s s' h hs
    simp only [samplingLoop, readStop_spec] at h
    split at h
    · cases h; simp [afterStop, hs]
    · rcases sampIter_cases env p t0 (afterStop env s) with hit | ⟨hsw, _, hit⟩
      · rw [hit] at h
        have := ih h (by simp [afterStop, hs])
        simpa [afterStop] using this
      · rw [afterStop] at hsw
        simp [hs] at hsw

theorem samplingLoop_switched_false : ∀ {fuel : ℕ} {s s' : RunState T},
    samplingLoop env p t0 fuel s = some s' → s.switched = false →
    (s'.switched = false ∧ s'.nSwitchOn = s.nSwitchOn ∧ s'.switchOnT = s.switchOnT) ∨
    (s'.switched = true ∧ s'.nSwitchOn = s.nSwitchOn + 1 ∧
      ∃ tv, s'.switchOnT = some tv ∧ p.turn_on_time ≤ tv) := by
  intro fuel
  induction fuel with
  | zero => intro s s' h; exact absurd h (by simp [samplingLoop])
  | succ n ih =>
    intro s s' h hs
    simp only [samplingLoop, readStop_spec] at h
    split at h
    · cases h; exact Or.inl (by simp [afterStop, hs])
    · rcases sampIter_cases env p t0 (afterStop env s) with hit | ⟨hsw, hth, hit⟩
      · rw [hit] at h
        have := ih h (by simp [afterStop, hs])
        rcases this with ⟨h1, h2, h3⟩ | ⟨h1, h2, h3⟩
        · exact Or.inl ⟨h1, by simpa [afterStop] using h2, by simpa [afterStop] using h3⟩
        · exact Or.inr ⟨h1, by simpa [afterStop] using h2, by simpa [afterStop] using h3⟩
      · rw [hit] at h
        have := samplingLoop_switched_true h (by simp)
        refine Or.inr ⟨this.1, ?_, ?_⟩
        · have := this.2.1; simpa [afterStop] using this
        · obtain ⟨-, -, hT⟩ := this
          exact ⟨env.clock s.clockIdx - t0, by simpa [afterStop] using hT, hth⟩

theorem samplingLoop_witness_fires : ∀ {fuel : ℕ} {s s' : RunState T},
    samplingLoop env p t0 fuel s = some s' → s.switched = false →
    ∃ l, s'.datapoints = s.datapoints ++ l ∧
      ((∃ d ∈ l, p.turn_on_time + t0 ≤ d.1) → s'.switched = true) := by
  intro fuel
  induction fuel with
  | zero => intro s s' h; exact absurd h (by simp [samplingLoop])
  | succ n ih =>
    intro s s' h hs
    simp only [samplingLoop, readStop_spec] at h
    split at h
    · cases h; exact ⟨[], by simp [afterStop], by simp⟩
    · by_cases hth : p.turn_on_time ≤ env.clock (afterStop env s).clockIdx - t0
      · rw [sampIter_fire (by simp [afterStop, hs]) hth] at h
        have hsw := samplingLoop_switched_true h (by simp)
        obtain ⟨-, ⟨ld, hd⟩, -⟩ := samplingLoop_extends h
        refine ⟨(env.clock s.clockIdx, env.curr s.measIdx, env.volt s.measIdx) :: ld,
          ?_, fun _ => hsw.1⟩
        rw [hd]
        simp [afterStop]
      · rw [sampIter_below hth] at h
        obtain ⟨l, hdl, himp⟩ := ih h (by simp [afterStop, hs])
        rw [show ((env.clock (afterStop env s).clockIdx, env.curr (afterStop env s).measIdx,
              env.volt (afterStop env s).measIdx) : T × String × String) =
            (env.clock s.clockIdx, env.curr s.measIdx, env.volt s.measIdx) by rfl] at hdl
        refine ⟨(env.clock s.clockIdx, env.curr s.measIdx, env.volt s.measIdx) :: l, ?_, ?_⟩
        · rw [hdl]; simp [afterStop]
        · rintro ⟨d, hdmem, hdle⟩
          rcases List.mem_cons.mp hdmem with hd1 | hd2
          · exfalso
            apply hth
            rw [le_sub_iff_add_le]
            simpa [afterStop, hd1] using hdle
          · exact himp ⟨d, hd2, hdle⟩

theorem samplingLoop_first_false {fuel : ℕ} {s s' : RunState T}
    (h : samplingLoop env p t0 fuel s = some s')
    (hflag : (env.extStop s.stopIdx).getD s.stoptrigger = false) :
    s.datapoints.length < s'.datapoints.length := by
  cases fuel with
  | zero => exact absurd h (by simp [samplingLoop])
  | succ n =>
    simp only [samplingLoop, readStop_spec] at h
    split at h
    · simp_all
    · obtain ⟨-, ⟨ld, hd⟩, -⟩ := samplingLoop_extends h
      rcases sampIter_cases env p t0 (afterStop env s) with hit | ⟨-, -, hit⟩ <;>
      · rw [hit] at hd
        rw [hd]
        simp [afterStop]

theorem samplingLoop_stopVal (b0 : Bool) : ∀ {fuel : ℕ} {s s' : RunState T},
    samplingLoop env p t0 fuel s = some s' →
    s.stoptrigger = stopVal env b0 s.stopIdx →
    s'.stoptrigger = stopVal env b0 s'.stopIdx := by
  intro fuel
  induction fuel with
  | zero => intro s s' h; exact absurd h (by simp [samplingLoop])
  | succ n ih =>
    intro s s' h hinv
    simp only [samplingLoop, readStop_spec] at h
    split at h
    · cases h; simp [afterStop, stopVal, hinv]
    · rcases sampIter_cases env p t0 (afterStop env s) with hit | ⟨-, -, hit⟩ <;>
      · rw [hit] at h
        exact ih h (by simp [afterStop, stopVal, hinv])

theorem samplingLoop_len_iters : ∀ {fuel : ℕ} {s s' : RunState T},
    samplingLoop env p t0 fuel s = some s' →
    s.datapoints.length = s.iters →
    s'.datapoints.length = s'.iters := by
  intro fuel
  induction fuel with
  | zero => intro s s' h; exact absurd h (by simp [samplingLoop])
  | succ n ih =>
    intro s s' h hinv
    simp only [samplingLoop, readStop_spec] at h
    split at h
    · cases h; simpa [afterStop] using hinv
    · rcases sampIter_cases env p t0 (afterStop env s) with hit | ⟨-, -, hit⟩ <;>
      · rw [hit] at h
        exact ih h (by simp [afterStop, hinv])

/-- Timestamp invariant: recorded timestamps are pairwise non-decreasing
and every one of them is a clock value already consumed. -/
def TsInv (env : Env T) (s : RunState T) : Prop :=
  List.Pairwise (fun a b : T × String × String => a.1 ≤ b.1) s.datapoints ∧
  ∀ d ∈ s.datapoints, ∃ i, i < s.clockIdx ∧ d.1 = env.clock i

theorem tsInv_push {env : Env T} {l : List (T × String × String)} {k : ℕ}
    (hmono : ∀ i j : ℕ, i ≤ j → env.clock i ≤ env.clock j)
    (hp : List.Pairwise (fun a b : T × String × String => a.1 ≤ b.1) l)
    (hb : ∀ d ∈ l, ∃ i, i < k ∧ d.1 = env.clock i) (c v : String) :
    List.Pairwise (fun a b : T × String × String => a.1 ≤ b.1)
      (l ++ [(env.clock k, c, v)]) ∧
    ∀ d ∈ l ++ [(env.clock k, c, v)], ∃ i, i < k + 1 ∧ d.1 = env.clock i := by
  constructor
  · refine List.pairwise_append.mpr ⟨hp, List.pairwise_singleton _ _, ?_⟩
    intro x hx y hy
    obtain ⟨i, hik, hxi⟩ := hb x hx
    have hy' : y = (env.clock k, c, v) := by simpa using hy
    rw [hxi, hy']
    exact hmono i k (le_of_lt hik)
  · intro d hd
    rcases List.mem_append.mp hd with hd1 | hd2
    · obtain ⟨i, hik, hxi⟩ := hb d hd1
      exact ⟨i, Nat.lt_succ_of_lt hik, hxi⟩
    · have hd' : d = (env.clock k, c, v) := by simpa using hd2
      exact ⟨k, Nat.lt_succ_self k, by rw [hd']⟩

theorem samplingLoop_tsInv
    (hmono : ∀ i j : ℕ, i ≤ j → env.clock i ≤ env.clock j) :
    ∀ {fuel : ℕ} {s s' : RunState T},
    samplingLoop env p t0 fuel s = some s' → TsInv env s → TsInv env s' := by
  intro fuel
  induction fuel with
  | zero => intro s s' h; exact absurd h (by simp [samplingLoop])
  | succ n ih =>
    intro s s' h hinv
    simp only [samplingLoop, readStop_spec] at h
    split at h
    · cases h
      exact ⟨by simpa [afterStop] using hinv.1, by simpa [afterStop] using hinv.2⟩
    · have hpush := tsInv_push hmono hinv.1 hinv.2 (env.curr s.measIdx) (env.volt s.measIdx)
      rcases sampIter_cases env p t0 (afterStop env s) with hit | ⟨-, -, hit⟩ <;>
      · rw [hit] at h
        refine ih h ⟨by simpa [afterStop] using hpush.1, ?_⟩
        intro d hd
        exact hpush.2 d (by simpa [afterStop] using hd)

theorem samplingLoop_fire_decomp : ∀ {fuel : ℕ} {s s' : RunState T},
    samplingLoop env p t0 fuel s = some s' → s.switched = false →
    s'.switched = true →
    ∃ pre rest tv c v,
      s'.events = pre ++ (Ev.write (.sourVolt p.turn_on_voltage) :: (beepUpEvs T ++
        [Ev.write (measCurrCmd T), Ev.write (measVoltCmd T),
         Ev.sample tv c v])) ++ rest ∧
      p.turn_on_time + t0 ≤ tv := by
  intro fuel
  induction fuel with
  | zero => intro s s' h; exact absurd h (by simp [samplingLoop])
  | succ n ih =>
    intro s s' h hs hs'
    simp only [samplingLoop, readStop_spec] at h
    split at h
    · cases h; simp [afterStop, hs] at hs'
    · by_cases hth : p.turn_on_time ≤ env.clock (afterStop env s).clockIdx - t0
      · rw [sampIter_fire (by simp [afterStop, hs]) hth] at h
        obtain ⟨⟨le, he⟩, -, -⟩ := samplingLoop_extends h
        refine ⟨(afterStop env s).events, le, env.clock s.clockIdx,
          env.curr s.measIdx, env.volt s.measIdx, ?_, ?_⟩
        · rw [he]; simp [afterStop]
        · rw [← le_sub_iff_add_le]
          exact hth
      · rw [sampIter_below hth] at h
        exact ih h (by simp [afterStop, hs]) hs'

/-! ### Invariants of the post-off loop -/

/-- Frame of the post-off phase relative to its entry state: events and
datapoints only grow, the appended events contain no `stoptrigger` read, and
every field the phase does not touch is preserved. -/
def PostFrame (s s' : RunState T) : Prop :=
  (∃ le, s'.events = s.events ++ le ∧ ∀ e ∈ le, e.isStopRead = false) ∧
  (∃ ld, s'.datapoints = s.datapoints ++ ld) ∧
  s'.stopIdx = s.stopIdx ∧ s'.stoptrigger = s.stoptrigger ∧
  s'.switched = s.switched ∧ s'.nSwitchOn = s.nSwitchOn ∧
  s'.nSwitchOff = s.nSwitchOff ∧ s'.switchOnT = s.switchOnT ∧
  s.clockIdx ≤ s'.clockIdx

omit [LinearOrderedAddCommGroup T] in
theorem PostFrame.postFrameSelf {s : RunState T} : PostFrame s s :=
  ⟨⟨[], by simp, by simp⟩, ⟨[], by simp⟩, rfl, rfl, rfl, rfl, rfl, rfl, le_refl _⟩

omit [LinearOrderedAddCommGroup T] in
theorem PostFrame.postFrameTrans {a b c : RunState T} (h1 : PostFrame a b)
    (h2 : PostFrame b c) : PostFrame a c := by
  obtain ⟨⟨le1, he1, hn1⟩, ⟨ld1, hd1⟩, h1a, h1b, h1c, h1d, h1e, h1f, h1g⟩ := h1
  obtain ⟨⟨le2, he2, hn2⟩, ⟨ld2, hd2⟩, h2a, h2b, h2c, h2d, h2e, h2f, h2g⟩ := h2
  refine ⟨⟨le1 ++ le2, by simp [he2, he1], ?_⟩, ⟨ld1 ++ ld2, by simp [hd2, hd1]⟩,
    h2a.trans h1a, h2b.trans h1b, h2c.trans h1c, h2d.trans h1d,
    h2e.trans h1e, h2f.trans h1f, le_trans h1g h2g⟩
  intro e he
  rcases List.mem_append.mp he with h | h
  · exact hn1 e h
  · exact hn2 e h

theorem postFrame_postIter (env : Env T) (t0 : T) (s : RunState T) :
    PostFrame s (postIter env t0 s).2 := by
  rw [postIter_spec]
  refine ⟨⟨[Ev.write (measCurrCmd T), Ev.write (measVoltCmd T),
    Ev.sample (env.clock s.clockIdx) (env.curr s.measIdx) (env.volt s.measIdx)],
    by simp, ?_⟩, ⟨[(env.clock s.clockIdx, env.curr s.measIdx, env.volt s.measIdx)],
    by simp⟩, rfl, rfl, rfl, rfl, rfl, rfl, Nat.le_succ _⟩
  intro e he
  simp only [List.mem_cons, List.mem_singleton, List.not_mem_nil] at he
  rcases he with h | h | h | h
  · rw [h]; rfl
  · rw [h]; rfl
  · rw [h]; rfl
  · exact absurd h (by simp)

theorem postOffLoop_frame : ∀ {fuel : ℕ} {t tf : T} {s s' : RunState T},
    postOffLoop env p t0 t1 fuel t s = some (tf, s') → PostFrame s s' := by
  intro fuel
  induction fuel with
  | zero =>
    intro t tf s s' h
    simp only [postOffLoop] at h
    split at h
    · exact absurd h (by simp)
    · cases h; exact PostFrame.postFrameSelf
  | succ n ih =>
    intro t tf s s' h
    simp only [postOffLoop] at h
    split at h
    · exact (postFrame_postIter env t0 s).postFrameTrans (ih h)
    · cases h; exact PostFrame.postFrameSelf

theorem postOffLoop_exit_ge : ∀ {fuel : ℕ} {t tf : T} {s s' : RunState T},
    postOffLoop env p t0 t1 fuel t s = some (tf, s') →
    t1 + p.turn_off_time_meas ≤ tf := by
  intro fuel
  induction fuel with
  | zero =>
    intro t tf s s' h
    simp only [postOffLoop] at h
    split at h
    · exact absurd h (by simp)
    · cases h
      next hc => exact not_lt.mp hc
  | succ n ih =>
    intro t tf s s' h
    simp only [postOffLoop] at h
    split at h
    · exact ih h
    · cases h
      next hc => exact not_lt.mp hc

theorem postOffLoop_progress {fuel : ℕ} {t tf : T} {s s' : RunState T}
    (h : postOffLoop env p t0 t1 fuel t s = some (tf, s'))
    (hlt : t < t1 + p.turn_off_time_meas) :
    s.datapoints.length < s'.datapoints.length := by
  cases fuel with
  | zero =>
    simp only [postOffLoop] at h
    rw [if_pos hlt] at h
    exact absurd h (by simp)
  | succ n =>
    simp only [postOffLoop] at h
    rw [if_pos hlt] at h
    obtain ⟨-, ⟨ld, hd⟩, -⟩ := postOffLoop_frame h
    rw [postIter_spec] at hd
    rw [hd]
    simp

theorem postOffLoop_len_iters : ∀ {fuel : ℕ} {t tf : T} {s s' : RunState T},
    postOffLoop env p t0 t1 fuel t s = some (tf, s') →
    s.datapoints.length = s.iters →
    s'.datapoints.length = s'.iters := by
  intro fuel
  induction fuel with
  | zero =>
    intro t tf s s' h hinv
    simp only [postOffLoop] at h
    split at h
    · exact absurd h (by simp)
    · cases h; exact hinv
  | succ n ih =>
    intro t tf s s' h hinv
    simp only [postOffLoop] at h
    split at h
    · refine ih h ?_
      rw [postIter_spec]
      simp [hinv]
    · cases h; exact hinv

theorem postOffLoop_tsInv
    (hmono : ∀ i j : ℕ, i ≤ j → env.clock i ≤ env.clock j) :
    ∀ {fuel : ℕ} {t tf : T} {s s' : RunState T},
    postOffLoop env p t0 t1 fuel t s = some (tf, s') →
    TsInv env s → TsInv env s' := by
  intro fuel
  induction fuel with
  | zero =>
    intro t tf s s' h hinv
    simp only [postOffLoop] at h
    split at h
    · exact absurd h (by simp)
    · cases h; exact hinv
  | succ n ih =>
    intro t tf s s' h hinv
    simp only [postOffLoop] at h
    split at h
    · have hpush := tsInv_push hmono hinv.1 hinv.2 (env.curr s.measIdx) (env.volt s.measIdx)
      refine ih h ⟨?_, ?_⟩ <;> rw [postIter_spec]
      · exact hpush.1
      · exact hpush.2
    · cases h; exact hinv

/-! ### Decomposition of a full run -/

/-- The state at entry of the post-off loop: the sampling-loop exit state
after the switch-off write, `beep_dn`, and the `time.time()` read of source
line 152. -/
def afterOff (p : Params T) (s : RunState T) : RunState T :=
  { s with nSwitchOff := s.nSwitchOff + 1,
           events := s.events ++ (Ev.write (Cmd.sourVolt p.turn_off_voltage) :: beepDnEvs T),
           clockIdx := s.clockIdx + 1 }

omit [LinearOrderedAddCommGroup T] in
theorem afterOff_spec (env : Env T) (p : Params T) (s : RunState T) :
    readClock env (beep_dn (writeC (Cmd.sourVolt p.turn_off_voltage)
        { s with nSwitchOff := s.nSwitchOff + 1 })) =
      (env.clock s.clockIdx, afterOff p s) := by
  simp [readClock, beep_dn, writeC, emit, afterOff, beepDnEvs]

/-- A terminating `run_measurement` splits into a terminating sampling loop
followed by the switch-off block and a terminating post-off loop. -/
theorem run_cases {b0 : Bool} {fuel1 fuel2 : ℕ} {out : T × T × RunState T}
    (H : run_measurement env p b0 fuel1 fuel2 = some out) :
    ∃ s1 tf s2,
      samplingLoop env p (env.clock 0) fuel1 (initState T b0) = some s1 ∧
      postOffLoop env p (env.clock 0) (env.clock s1.clockIdx - env.clock 0) fuel2
        (env.clock s1.clockIdx - env.clock 0) (afterOff p s1) = some (tf, s2) ∧
      out = (env.clock s1.clockIdx - env.clock 0, tf, s2) := by
  simp only [run_measurement] at H
  cases hsl : samplingLoop env p (env.clock 0) fuel1 (initState T b0) with
  | none => rw [hsl] at H; exact absurd H (by simp)
  | some s1 =>
    rw [hsl] at H
    dsimp only at H
    simp only [afterOff_spec] at H
    cases hpo : postOffLoop env p (env.clock 0) (env.clock s1.clockIdx - env.clock 0)
        fuel2 (env.clock s1.clockIdx - env.clock 0) (afterOff p s1) with
    | none => rw [hpo] at H; exact absurd H (by simp)
    | some r =>
      obtain ⟨tf, s2⟩ := r
      rw [hpo] at H
      simp only [Option.some.injEq] at H
      exact ⟨s1, tf, s2, rfl, hpo, H.symm⟩

/-! ### Claim theorems -/

/-- C3: every terminating run issues the switch-off command exactly once
(`nSwitchOff` counts executions of the switch-off write, and it is `0`
throughout the sampling loop), and it is the very first event after the
sampling loop's trace — i.e. immediately after the Stop Signal was observed
true and the loop exited; no hypothesis restricts whether the switch-on was
ever issued, so this holds in particular when it was not. -/
theorem c3_switch_off_once {env : Env T} {p : Params T} {b0 : Bool}
    {fuel1 fuel2 : ℕ} {out : T × T × RunState T}
    (H : run_measurement env p b0 fuel1 fuel2 = some out) :
    out.2.2.nSwitchOff = 1 ∧
    ∃ s1 rest,
      samplingLoop env p (env.clock 0) fuel1 (initState T b0) = some s1 ∧
      s1.nSwitchOff = 0 ∧
      out.2.2.events = s1.events ++ (Ev.write (Cmd.sourVolt p.turn_off_voltage) :: rest) := by
  obtain ⟨s1, tf, s2, hsl, hpo, hout⟩ := run_cases H
  have hoff1 : s1.nSwitchOff = 0 := by
    have := samplingLoop_nSwitchOff hsl
    simpa [initState] using this
  obtain ⟨⟨le, he, -⟩, -, -, -, -, -, hoffpres, -, -⟩ := postOffLoop_frame hpo
  subst hout
  refine ⟨?_, s1, beepDnEvs T ++ le, hsl, hoff1, ?_⟩
  · rw [hoffpres]
    simp [afterOff, hoff1]
  · rw [he]
    simp [afterOff]

/-- C5: on every terminating run, the elapsed time observed by the final
post-off check is at least `t1 + turn_off_time_meas` (the phase covers the
configured duration from the switch-off reference time), and the whole
post-loop trace — switch-off write, beeps and post-off phase — contains no
read of the Stop Signal, so setting the flag again during that phase cannot
influence the run. -/
theorem c5_post_off_duration_no_stop_read {env : Env T} {p : Params T}
    {b0 : Bool} {fuel1 fuel2 : ℕ} {out : T × T × RunState T}
    (H : run_measurement env p b0 fuel1 fuel2 = some out) :
    out.1 + p.turn_off_time_meas ≤ out.2.1 ∧
    ∃ s1 rest,
      samplingLoop env p (env.clock 0) fuel1 (initState T b0) = some s1 ∧
      out.2.2.events = s1.events ++ rest ∧
      (∀ e ∈ rest, e.isStopRead = false) ∧
      out.2.2.stopIdx = s1.stopIdx := by
  obtain ⟨s1, tf, s2, hsl, hpo, hout⟩ := run_cases H
  obtain ⟨⟨le, he, hnsr⟩, -, hstop, -, -, -, -, -, -⟩ := postOffLoop_frame hpo
  subst hout
  refine ⟨postOffLoop_exit_ge hpo, s1,
    (Ev.write (Cmd.sourVolt p.turn_off_voltage) :: beepDnEvs T) ++ le, hsl, ?_, ?_, ?_⟩
  · rw [he]
    simp [afterOff]
  · intro e hee
    rcases List.mem_append.mp hee with hh | hh
    · simp only [beepDnEvs, List.mem_cons, List.not_mem_nil, or_false] at hh
      rcases hh with rfl | rfl | rfl | rfl | rfl | rfl <;> rfl
    · exact hnsr e hh
  · rw [hstop]
    simp [afterOff]

/-- C7: `self.datapoints` starts empty, every executed loop-body iteration
(of either loop) appends exactly one sample — so in the final state the row
count equals the iteration count — and the final list extends the
sampling-phase list (samples are only appended, never removed or
modified). -/
theorem c7_append_only_one_sample_per_iter {env : Env T} {p : Params T}
    {b0 : Bool} {fuel1 fuel2 : ℕ} {out : T × T × RunState T}
    (H : run_measurement env p b0 fuel1 fuel2 = some out) :
    (initState T b0).datapoints = [] ∧
    out.2.2.datapoints.length = out.2.2.iters ∧
    ∃ s1 ld,
      samplingLoop env p (env.clock 0) fuel1 (initState T b0) = some s1 ∧
      s1.datapoints.length = s1.iters ∧
      out.2.2.datapoints = s1.datapoints ++ ld := by
  obtain ⟨s1, tf, s2, hsl, hpo, hout⟩ := run_cases H
  have hlen1 : s1.datapoints.length = s1.iters :=
    samplingLoop_len_iters hsl (by simp [initState])
  have hlen2 : s2.datapoints.length = s2.iters :=
    postOffLoop_len_iters hpo (by simpa [afterOff] using hlen1)
  obtain ⟨-, ⟨ld, hd⟩, -⟩ := postOffLoop_frame hpo
  subst hout
  refine ⟨rfl, hlen2, s1, ld, hsl, hlen1, ?_⟩
  rw [hd]
  simp [afterOff]

/-- C8: the loop never writes the Stop Signal: after any terminating run the
flag's value is exactly the fold of the external writes consumed (its
initial value updated by each external write, in order) — the run itself
contributes nothing to it. -/
theorem c8_stoptrigger_read_only {env : Env T} {p : Params T} {b0 : Bool}
    {fuel1 fuel2 : ℕ} {out : T × T × RunState T}
    (H : run_measurement env p b0 fuel1 fuel2 = some out) :
    out.2.2.stoptrigger = stopVal env b0 out.2.2.stopIdx := by
  obtain ⟨s1, tf, s2, hsl, hpo, hout⟩ := run_cases H
  have h1 : s1.stoptrigger = stopVal env b0 s1.stopIdx :=
    samplingLoop_stopVal b0 hsl (by simp [initState, stopVal])
  obtain ⟨-, -, hstop, htrig, -, -, -, -, -⟩ := postOffLoop_frame hpo
  subst hout
  have htrig' : s2.stoptrigger = s1.stoptrigger := by
    rw [htrig]; simp [afterOff]
  have hstop' : s2.stopIdx = s1.stopIdx := by
    rw [hstop]; simp [afterOff]
  rw [htrig', hstop', h1]

/-- C1 (amended): on every terminating run the switch-on command is issued
at most once; whenever it is issued, the elapsed time `t` recorded at the
write satisfies `t ≥ turn_on_time` (so it is never issued at an iteration
with `t < turn_on_time`); it is issued exactly once — rather than always —
precisely when the recorded switch-on time exists, and in particular it is
issued whenever some sampling-phase iteration observes an elapsed time at
or beyond the threshold before the Stop Signal ends the loop. -/
theorem c1_switch_on_at_most_once_guarded {env : Env T} {p : Params T}
    {b0 : Bool} {fuel1 fuel2 : ℕ} {out : T × T × RunState T}
    (H : run_measurement env p b0 fuel1 fuel2 = some out) :
    out.2.2.nSwitchOn ≤ 1 ∧
    (∀ tv, out.2.2.switchOnT = some tv → p.turn_on_time ≤ tv) ∧
    (out.2.2.nSwitchOn = 1 ↔ ∃ tv, out.2.2.switchOnT = some tv) ∧
    ∃ s1 ld,
      samplingLoop env p (env.clock 0) fuel1 (initState T b0) = some s1 ∧
      out.2.2.datapoints = s1.datapoints ++ ld ∧
      ((∃ d ∈ s1.datapoints, p.turn_on_time + env.clock 0 ≤ d.1) →
        out.2.2.nSwitchOn = 1) := by
  obtain ⟨s1, tf, s2, hsl, hpo, hout⟩ := run_cases H
  obtain ⟨-, ⟨ld, hd⟩, -, -, hsw, hon, -, hT, -⟩ := postOffLoop_frame hpo
  subst hout
  have hon' : s2.nSwitchOn = s1.nSwitchOn := by rw [hon]; simp [afterOff]
  have hT' : s2.switchOnT = s1.switchOnT := by rw [hT]; simp [afterOff]
  have hsw' : s2.switched = s1.switched := by rw [hsw]; simp [afterOff]
  have hd' : s2.datapoints = s1.datapoints ++ ld := by rw [hd]; simp [afterOff]
  rcases samplingLoop_switched_false hsl (by simp [initState])
    with ⟨hb1, hb2, hb3⟩ | ⟨hb1, hb2, hb3⟩
  · have hz : s1.nSwitchOn = 0 := by simpa [initState] using hb2
    have hn : s1.switchOnT = none := by simpa [initState] using hb3
    refine ⟨by simp [hon', hz], ?_, ?_, s1, ld, hsl, hd', ?_⟩
    · intro tv htv
      rw [hT', hn] at htv
      cases htv
    · rw [hon', hT', hz, hn]
      simp
    · intro hwit
      obtain ⟨l, hl, hfire⟩ := samplingLoop_witness_fires hsl (by simp [initState])
      have hl' : s1.datapoints = l := by simpa [initState] using hl
      have : s1.switched = true := hfire (by rw [← hl']; exact hwit)
      rw [this] at hb1
      cases hb1
  · obtain ⟨tv, htv, hge⟩ := hb3
    have h1 : s1.nSwitchOn = 1 := by simpa [initState] using hb2
    refine ⟨by simp [hon', h1], ?_, ?_, s1, ld, hsl, hd', fun _ => by simp [hon', h1]⟩
    · intro tv' htv'
      rw [hT', htv] at htv'
      cases htv'
      exact hge
    · rw [hon', hT', h1, htv]
      simp

/-- C4 (amended): a terminating run's finalized array is non-empty provided
the Stop Signal is not already set at the loop's first check or
`turn_off_time_meas` is positive; there is no unconditional initial sample
taken outside the loops. -/
theorem c4_nonempty_rows {env : Env T} {p : Params T} {b0 : Bool}
    {fuel1 fuel2 : ℕ} {out : T × T × RunState T}
    (H : run_measurement env p b0 fuel1 fuel2 = some out)
    (hcase : (env.extStop 0).getD b0 = false ∨ 0 < p.turn_off_time_meas) :
    out.2.2.datapoints ≠ [] := by
  obtain ⟨s1, tf, s2, hsl, hpo, hout⟩ := run_cases H
  subst hout
  have hlen : 0 < s2.datapoints.length := by
    rcases hcase with hfl | hd
    · have h1 : 0 < s1.datapoints.length := by
        have := samplingLoop_first_false hsl (by simpa [initState] using hfl)
        simpa [initState] using this
      obtain ⟨-, ⟨ld, hd2⟩, -⟩ := postOffLoop_frame hpo
      rw [hd2]
      simp only [afterOff, List.length_append]
      omega
    · have := postOffLoop_progress hpo
        (lt_add_of_pos_right (env.clock s1.clockIdx - env.clock 0) hd)
      omega
  intro hnil
  rw [hnil] at hlen
  simp at hlen

/-- C6: if the clock stream read by the loop is non-decreasing, then in the
finalized array every pair of consecutive samples has non-decreasing
timestamps. -/
theorem c6_timestamps_nondecreasing {env : Env T} {p : Params T} {b0 : Bool}
    {fuel1 fuel2 : ℕ} {out : T × T × RunState T}
    (H : run_measurement env p b0 fuel1 fuel2 = some out)
    (hmono : ∀ i j : ℕ, i ≤ j → env.clock i ≤ env.clock j) :
    List.Chain' (fun a b : T × String × String => a.1 ≤ b.1)
      out.2.2.datapoints := by
  obtain ⟨s1, tf, s2, hsl, hpo, hout⟩ := run_cases H
  subst hout
  have hinv1 : TsInv env s1 :=
    samplingLoop_tsInv hmono hsl ⟨by simp [initState], by simp [initState]⟩
  have hinv2 : TsInv env (afterOff p s1) := by
    refine ⟨by simpa [afterOff] using hinv1.1, ?_⟩
    intro d hdm
    obtain ⟨i, hik, hdi⟩ := hinv1.2 d (by simpa [afterOff] using hdm)
    exact ⟨i, by simp [afterOff]; omega, hdi⟩
  have hinv3 := postOffLoop_tsInv hmono hpo hinv2
  exact hinv3.1.chain'

/-- C10: whenever the switch-on command was issued, the event trace contains
— consecutively — the switch-on write, the five `beep_up` writes, the two
measurement queries of that same iteration, and that iteration's sample;
so the instrument was commanded to the new level before the first at-or-
after-threshold sample was measured and recorded, and that sample's
timestamp `tv` satisfies `turn_on_time + t0 ≤ tv`. -/
theorem c10_switch_on_before_sample {env : Env T} {p : Params T} {b0 : Bool}
    {fuel1 fuel2 : ℕ} {out : T × T × RunState T}
    (H : run_measurement env p b0 fuel1 fuel2 = some out)
    (hfired : out.2.2.nSwitchOn = 1) :
    ∃ pre rest tv c v,
      out.2.2.events = pre ++ (Ev.write (Cmd.sourVolt p.turn_on_voltage) ::
        (beepUpEvs T ++ [Ev.write (measCurrCmd T), Ev.write (measVoltCmd T),
          Ev.sample tv c v])) ++ rest ∧
      p.turn_on_time + env.clock 0 ≤ tv := by
  obtain ⟨s1, tf, s2, hsl, hpo, hout⟩ := run_cases H
  obtain ⟨⟨le, he, -⟩, -, -, -, hsw, hon, -, -, -⟩ := postOffLoop_frame hpo
  subst hout
  have hon' : s2.nSwitchOn = s1.nSwitchOn := by rw [hon]; simp [afterOff]
  have hsw' : s2.switched = s1.switched := by rw [hsw]; simp [afterOff]
  have hs1on : s1.nSwitchOn = 1 := by rw [← hon']; exact hfired
  have hs1sw : s1.switched = true := by
    rcases samplingLoop_switched_false hsl (by simp [initState])
      with ⟨-, hb2, -⟩ | ⟨hb1, -, -⟩
    · rw [show (initState T b0).nSwitchOn = 0 from rfl] at hb2
      rw [hb2] at hs1on
      cases hs1on
    · exact hb1
  obtain ⟨pre, rest0, tv, c, v, hdec, hge⟩ :=
    samplingLoop_fire_decomp hsl (by simp [initState]) hs1sw
  refine ⟨pre, rest0 ++ (Ev.write (Cmd.sourVolt p.turn_off_voltage) ::
    beepDnEvs T) ++ le, tv, c, v, ?_, hge⟩
  rw [he]
  simp only [afterOff, hdec]
  simp

/-- C9: `write c` sends exactly `c` with a single `"\n"` appended;
`query c n` first sends `c` (with its terminator) and then returns at most
`n` bytes — exactly the bytes available, with no completeness check. -/
theorem c9_command_link_write_query (c : String) (n : ℕ) (sk : Socket) :
    (write c sk).sent = sk.sent ++ (c ++ "\n") ∧
    (query c n sk).2.sent = sk.sent ++ (c ++ "\n") ∧
    (query c n sk).1 = sk.avail.take n ∧
    (query c n sk).1.length ≤ n := by
  refine ⟨rfl, rfl, rfl, ?_⟩
  rw [show (query c n sk).1 = sk.avail.take n from rfl, List.length_take]
  exact min_le_left _ _

/-! ### `meas_interval` is never read

The loops pass `meas_interval` only to `time.sleep`; replacing its value by
anything (in particular a non-positive value) leaves the entire observable
run unchanged, and no error path exists. -/

theorem sampIter_meas_interval (x : T) (s : RunState T) :
    sampIter env { p with meas_interval := x } t0 s = sampIter env p t0 s := rfl

theorem samplingLoop_meas_interval (x : T) : ∀ (fuel : ℕ) (s : RunState T),
    samplingLoop env { p with meas_interval := x } t0 fuel s =
      samplingLoop env p t0 fuel s := by
  intro fuel
  induction fuel with
  | zero => intro s; rfl
  | succ n ih =>
    intro s
    simp only [samplingLoop, sampIter_meas_interval, ih]

theorem postOffLoop_meas_interval (x : T) : ∀ (fuel : ℕ) (t : T) (s : RunState T),
    postOffLoop env { p with meas_interval := x } t0 t1 fuel t s =
      postOffLoop env p t0 t1 fuel t s := by
  intro fuel
  induction fuel with
  | zero => intro t s; rfl
  | succ n ih =>
    intro t s
    simp only [postOffLoop, ih]

theorem run_measurement_meas_interval (env : Env T) (p : Params T) (b0 : Bool)
    (fuel1 fuel2 : ℕ) (x : T) :
    run_measurement env { p with meas_interval := x } b0 fuel1 fuel2 =
      run_measurement env p b0 fuel1 fuel2 := by
  simp only [run_measurement, samplingLoop_meas_interval, postOffLoop_meas_interval]

/-! ### Concrete executions (witnesses and counterexamples), over `T = ℤ` -/

/-- A concrete non-decreasing clock stream: `0, 1, 2, 3, 4, 5, 6, 6, ...`. -/
def wClock : ℕ → ℤ := fun n => ((min n 6 : ℕ) : ℤ)

theorem wClock_mono : ∀ i j : ℕ, i ≤ j → wClock i ≤ wClock j := by
  intro i j h
  unfold wClock
  exact_mod_cast min_le_min h (le_refl 6)

/-- Environment in which the external actor sets the Stop Signal before the
loop's third flag read. -/
def wEnvRun : Env ℤ :=
  { clock := wClock, extStop := fun n => if n = 2 then some true else none,
    curr := fun _ => "+1.234E-5", volt := fun _ => "+5.0E0" }

/-- Environment in which the Stop Signal is already set at the very first
flag read (before any sampling iteration). -/
def wEnvStop : Env ℤ :=
  { clock := wClock, extStop := fun _ => some true,
    curr := fun _ => "+1.234E-5", volt := fun _ => "+5.0E0" }

/-- Valid parameters: switch on at elapsed time 2, observe 1 time unit after
switch-off, positive sampling interval. -/
def wParams : Params ℤ :=
  { turn_on_time := 2, turn_on_voltage := 5, turn_off_time_meas := 1,
    turn_off_voltage := 0, meas_interval := 1 }

/-- Like `wParams` but with a zero-length post-off window (a non-negative,
hence nominally valid, input). -/
def wParamsD0 : Params ℤ :=
  { turn_on_time := 2, turn_on_voltage := 5, turn_off_time_meas := 0,
    turn_off_voltage := 0, meas_interval := 1 }

/-- Like `wParams` but with `meas_interval = 0`, the input Scenario C of the
specification says must be rejected. -/
def wParamsMi0 : Params ℤ :=
  { turn_on_time := 2, turn_on_voltage := 5, turn_off_time_meas := 1,
    turn_off_voltage := 0, meas_interval := 0 }

/-- The outcome of the terminating run in `wEnvRun` (two sampling
iterations, the switch-on firing at the second, one post-off iteration). -/
def wOutRun : ℤ × ℤ × RunState ℤ :=
  (run_measurement wEnvRun wParams false 3 3).getD default

/-- The outcome of the terminating run in `wEnvStop` (the Stop Signal is
already set, so the sampling loop exits at its first check). -/
def wOutStop : ℤ × ℤ × RunState ℤ :=
  (run_measurement wEnvStop wParams false 2 2).getD default

/-- C1, counterexample to the claim as stated: a terminating run with valid
inputs (all parameters non-negative, `meas_interval > 0`) in which the Stop
Signal arrives before the switch-on threshold is reached, so the switch-on
command is issued zero times — not exactly once. -/
theorem c1_counterexample_never_issued :
    (run_measurement wEnvStop wParams false 2 2).map
      (fun r => r.2.2.nSwitchOn) = some 0 := by decide

/-- C4, counterexample to the claim as stated: a terminating run (Stop
Signal already set before the first iteration, `turn_off_time_meas = 0`)
whose finalized array has zero rows — there is no unconditional initial
sample at run start. -/
theorem c4_counterexample_empty_array :
    (run_measurement wEnvStop wParamsD0 false 2 2).map
      (fun r => r.2.2.datapoints.length) = some 0 := by decide

/-- C2: with `meas_interval = 0` (a value the specification requires to be
rejected with a `ConfigurationError` before any command is sent), the run
proceeds normally: it terminates, issues eighteen instrument writes — among
them the measurement queries and the switch-on and switch-off commands —
and no error of any kind is raised, `run_measurement` having no validation
or error path at all. -/
theorem c2_no_validation_commands_sent :
    wParamsMi0.meas_interval ≤ 0 ∧
    (run_measurement wEnvRun wParamsMi0 false 3 3).map
      (fun r => (r.2.2.events.filter (fun e => match e with
        | Ev.write _ => true
        | _ => false)).length) = some 18 ∧
    (run_measurement wEnvRun wParamsMi0 false 3 3).map
      (fun r => r.2.2.nSwitchOn) = some 1 ∧
    (run_measurement wEnvRun wParamsMi0 false 3 3).map
      (fun r => r.2.2.nSwitchOff) = some 1 := by decide

/-- Witness for C1: the amended switch-on theorem applied to the concrete
terminating run `wOutRun`, whose switch-on fires at elapsed time 2. -/
theorem c1_witness :
    (run_measurement wEnvRun wParams false 3 3 = some wOutRun) ∧
    (wOutRun.2.2.nSwitchOn ≤ 1 ∧
     (∀ tv, wOutRun.2.2.switchOnT = some tv → wParams.turn_on_time ≤ tv) ∧
     (wOutRun.2.2.nSwitchOn = 1 ↔ ∃ tv, wOutRun.2.2.switchOnT = some tv) ∧
     ∃ s1 ld,
       samplingLoop wEnvRun wParams (wEnvRun.clock 0) 3 (initState ℤ false) = some s1 ∧
       wOutRun.2.2.datapoints = s1.datapoints ++ ld ∧
       ((∃ d ∈ s1.datapoints, wParams.turn_on_time + wEnvRun.clock 0 ≤ d.1) →
         wOutRun.2.2.nSwitchOn = 1)) :=
  ⟨rfl, @c1_switch_on_at_most_once_guarded ℤ _ wEnvRun wParams false 3 3 wOutRun rfl⟩

/-- Witness for C3: the switch-off theorem applied to the concrete run
`wOutStop`, in which the Stop Signal was set before the switch-on threshold
was reached, so the switch-on command was never issued (`nSwitchOn = 0`)
and the switch-off command was still issued exactly once. -/
theorem c3_witness :
    (run_measurement wEnvStop wParams false 2 2 = some wOutStop) ∧
    wOutStop.2.2.nSwitchOn = 0 ∧
    (wOutStop.2.2.nSwitchOff = 1 ∧
     ∃ s1 rest,
       samplingLoop wEnvStop wParams (wEnvStop.clock 0) 2 (initState ℤ false) = some s1 ∧
       s1.nSwitchOff = 0 ∧
       wOutStop.2.2.events = s1.events ++
         (Ev.write (Cmd.sourVolt wParams.turn_off_voltage) :: rest)) :=
  ⟨rfl, by decide, @c3_switch_off_once ℤ _ wEnvStop wParams false 2 2 wOutStop rfl⟩

/-- Witness for C4: the amended non-emptiness theorem applied to the
concrete run `wOutRun`, whose Stop Signal is unset at the first check. -/
theorem c4_witness :
    (run_measurement wEnvRun wParams false 3 3 = some wOutRun) ∧
    ((wEnvRun.extStop 0).getD false = false ∨ 0 < wParams.turn_off_time_meas) ∧
    wOutRun.2.2.datapoints ≠ [] :=
  ⟨rfl, by decide, @c4_nonempty_rows ℤ _ wEnvRun wParams false 3 3 wOutRun rfl (by decide)⟩

/-- Witness for C5: the post-off duration/no-stop-read theorem applied to
the concrete run `wOutRun`. -/
theorem c5_witness :
    (run_measurement wEnvRun wParams false 3 3 = some wOutRun) ∧
    (wOutRun.1 + wParams.turn_off_time_meas ≤ wOutRun.2.1 ∧
     ∃ s1 rest,
       samplingLoop wEnvRun wParams (wEnvRun.clock 0) 3 (initState ℤ false) = some s1 ∧
       wOutRun.2.2.events = s1.events ++ rest ∧
       (∀ e ∈ rest, e.isStopRead = false) ∧
       wOutRun.2.2.stopIdx = s1.stopIdx) :=
  ⟨rfl, @c5_post_off_duration_no_stop_read ℤ _ wEnvRun wParams false 3 3 wOutRun rfl⟩

/-- Witness for C6: the non-decreasing-timestamps theorem applied to the
concrete run `wOutRun` under its monotone clock. -/
theorem c6_witness :
    (run_measurement wEnvRun wParams false 3 3 = some wOutRun) ∧
    List.Chain' (fun a b : ℤ × String × String => a.1 ≤ b.1)
      wOutRun.2.2.datapoints :=
  ⟨rfl, @c6_timestamps_nondecreasing ℤ _ wEnvRun wParams false 3 3 wOutRun rfl wClock_mono⟩

/-- Witness for C7: the append-only/one-sample-per-iteration theorem
applied to the concrete run `wOutRun` (three iterations, three rows). -/
theorem c7_witness :
    (run_measurement wEnvRun wParams false 3 3 = some wOutRun) ∧
    ((initState ℤ false).datapoints = [] ∧
     wOutRun.2.2.datapoints.length = wOutRun.2.2.iters ∧
     ∃ s1 ld,
       samplingLoop wEnvRun wParams (wEnvRun.clock 0) 3 (initState ℤ false) = some s1 ∧
       s1.datapoints.length = s1.iters ∧
       wOutRun.2.2.datapoints = s1.datapoints ++ ld) :=
  ⟨rfl, @c7_append_only_one_sample_per_iter ℤ _ wEnvRun wParams false 3 3 wOutRun rfl⟩

/-- Witness for C8: the read-only Stop Signal theorem applied to the
concrete run `wOutRun`. -/
theorem c8_witness :
    (run_measurement wEnvRun wParams false 3 3 = some wOutRun) ∧
    wOutRun.2.2.stoptrigger = stopVal wEnvRun false wOutRun.2.2.stopIdx :=
  ⟨rfl, @c8_stoptrigger_read_only ℤ _ wEnvRun wParams false 3 3 wOutRun rfl⟩

/-- Witness for C10: the switch-on-before-sample ordering theorem applied
to the concrete run `wOutRun`, in which the switch-on fired. -/
theorem c10_witness :
    (run_measurement wEnvRun wParams false 3 3 = some wOutRun) ∧
    wOutRun.2.2.nSwitchOn = 1 ∧
    (∃ pre rest tv c v,
      wOutRun.2.2.events = pre ++ (Ev.write (Cmd.sourVolt wParams.turn_on_voltage) ::
        (beepUpEvs ℤ ++ [Ev.write (measCurrCmd ℤ), Ev.write (measVoltCmd ℤ),
          Ev.sample tv c v])) ++ rest ∧
      wParams.turn_on_time + wEnvRun.clock 0 ≤ tv) :=
  ⟨rfl, by decide, @c10_switch_on_before_sample ℤ _ wEnvRun wParams false 3 3 wOutRun rfl (by decide)⟩

end GatingControl
